import Mathlib

/-
Verification development for the lars HTTP router (Go).

The execution-context code (src/context.go) and the router scaffolding
(src/lars.go) are embedded shallowly below.  The routing tree (Insert/Find)
and the dispatcher fallback policy are not part of the available source
files; they are modelled from the specification, and every definition doing
so carries a doc comment saying exactly that.

Machine-level details modelled explicitly:
 - Go interface values: a dedicated GoVal type with a constructor for the
   untyped nil, because Ctx.Get tests the looked-up value against nil.
 - Go slice indexing: out-of-range access is a runtime panic, represented
   by an explicit Outcome.panic result that carries the state reached at
   the moment of the fault (Go panics do not roll back side effects).
 - Handlers (Go closures) are deep-embedded as lists of primitive actions
   interpreted by a fuel-indexed evaluator, so that the re-entrant
   continuation primitive Ctx.Next is a total function.
-/

set_option autoImplicit false

/-- Param is a single URL parameter, consisting of a key and a value
(src/context.go, type Param). -/
structure Param where
  Key : String
  Value : String
deriving DecidableEq, Repr

/-- A Go interface value as stored in the request-scoped key/value store.
vnil is the untyped nil interface; vmethods holds a chainMethods value
(the set of method names that have a chain at a node), which is the only
non-scalar value the embedded code stores. -/
inductive GoVal where
  | vnil : GoVal
  | vstr : String → GoVal
  | vint : Int → GoVal
  | vmethods : List String → GoVal
deriving DecidableEq, Repr

/-- The observable part of an http.ResponseWriter: status code written by
WriteHeader (first write wins, as in net/http), response headers in the
order they were added, and body chunks. -/
structure Response where
  status : Option Nat
  headers : List (String × String)
  body : List String
deriving DecidableEq, Repr

/-- The empty response a freshly reset context starts from. -/
def Response.empty : Response := ⟨none, [], []⟩

/-- WriteHeader: records the status code; in net/http a second call is
ignored (superfluous-WriteHeader), so only the first write sticks. -/
def Response.writeHeader (r : Response) (code : Nat) : Response :=
  if r.status.isSome then r else { r with status := some code }

/-- Header().Add: appends a header entry. -/
def Response.addHeader (r : Response) (k v : String) : Response :=
  { r with headers := r.headers ++ [(k, v)] }

/-- http.StatusText for the codes the embedded handlers use. -/
def statusText (code : Nat) : String :=
  if code = 404 then "Not Found"
  else if code = 405 then "Method Not Allowed"
  else ""

/-- The observable part of an *http.Request for this development: the form
the standard library would parse (baseForm), whether that parse fails,
whether it already ran (Form non-nil), and the current Form contents. -/
structure HttpRequest where
  baseForm : List (String × String)
  parseFails : Bool
  httpParsed : Bool
  form : List (String × String)
deriving DecidableEq, Repr

/-- A request with nothing in it. -/
def HttpRequest.empty : HttpRequest := ⟨[], false, false, []⟩

/-- net/http Request.ParseForm: parses the form once; once Form is non-nil
it is a no-op returning nil.  A failing parse returns an error and leaves
Form unset. -/
def HttpRequest.doParseForm (r : HttpRequest) : Except Unit HttpRequest :=
  if r.httpParsed then .ok r
  else if r.parseFails then .error ()
  else .ok { r with form := r.baseForm, httpParsed := true }

/-- url.Values.Add: appends one key/value pair to the form. -/
def HttpRequest.formAdd (r : HttpRequest) (k v : String) : HttpRequest :=
  { r with form := r.form ++ [(k, v)] }

/-- The primitive actions a deep-embedded handler can perform.  record
logs an observation event; next is the continuation primitive Ctx.Next;
setKV is Ctx.Set; writeHeader writes a status; httpError is the body of
default404Handler (http.Error); addAllowFromMethods is the loop of
methodNotAllowedHandler (read the chainMethods value stored under the
key "methods" and add one Allow header per method). -/
inductive HAction where
  | record : String → HAction
  | next : HAction
  | setKV : String → GoVal → HAction
  | writeHeader : Nat → HAction
  | httpError : Nat → HAction
  | addAllowFromMethods : HAction
deriving DecidableEq, Repr

/-- HandlerFunc: a deep-embedded handler body. -/
abbrev Handler := List HAction

/-- HandlersChain is an ordered list of handlers (src/lars.go). -/
abbrev HandlersChain := List Handler

/-- Ctx encapsulates the request/response state (src/context.go, type Ctx).
The events field is the observation log the handlers write record events
to; it stands for the externally visible side effects of handler bodies. -/
structure Ctx where
  request : HttpRequest
  response : Response
  params : List Param
  handlers : List Handler
  index : Int
  store : List (String × GoVal)
  formParsed : Bool
  multipartFormParsed : Bool
  events : List String
deriving DecidableEq, Repr

/-- A blank context: what NewContext produces, observationally. -/
def Ctx.fresh : Ctx :=
  ⟨HttpRequest.empty, Response.empty, [], [], -1, [], false, false, []⟩

/-- RequestStart resets the Context to its default request state
(src/context.go lines 114-124): new request, response reset, params
truncated to length zero, the value store replaced by
context.Background(), cursor at -1, handlers nil, form flags cleared. -/
def Ctx.RequestStart (c : Ctx) (req : HttpRequest) : Ctx :=
  { c with
      request := req
      response := Response.empty
      params := []
      store := []
      index := -1
      handlers := []
      formParsed := false
      multipartFormParsed := false }

/-- The loop inside Ctx.Param (src/context.go lines 128-137): the value of
the first entry whose Key matches, else the blank string. -/
def paramLookup : List Param → String → String
  | [], _ => ""
  | p :: rest, name => if p.Key = name then p.Value else paramLookup rest name

/-- Ctx.Param: first matching parameter value, blank when absent. -/
def Ctx.Param (c : Ctx) (name : String) : String :=
  paramLookup c.params name

/-- Value lookup along the golang.org/x/net/context chain built by
WithValue: the most recently stored binding for the key wins, and an
absent key yields the nil interface value. -/
def storeValue : List (String × GoVal) → String → GoVal
  | [], _ => GoVal.vnil
  | (k, v) :: rest, key => if k = key then v else storeValue rest key

/-- Ctx.Set (src/context.go lines 189-191): wraps the current context in a
WithValue node, i.e. pushes the binding onto the lookup chain. -/
def Ctx.Set (c : Ctx) (key : String) (value : GoVal) : Ctx :=
  { c with store := (key, value) :: c.store }

/-- Ctx.Get (src/context.go lines 196-200): value := Context.Value(key);
exists := value != nil. -/
def Ctx.Get (c : Ctx) (key : String) : GoVal × Bool :=
  let value := storeValue c.store key
  (value, if value = GoVal.vnil then false else true)

/-- Ctx.ParseForm (src/context.go lines 144-161): once per request; calls
the underlying request's ParseForm, then adds every matched URL parameter
to the request Form. -/
def Ctx.ParseForm (c : Ctx) : Except Unit Ctx :=
  if c.formParsed then .ok c
  else
    match c.request.doParseForm with
    | .error e => .error e
    | .ok r =>
      let r2 := c.params.foldl (fun acc p => acc.formAdd p.Key p.Value) r
      .ok { c with request := r2, formParsed := true }

/-- Runtime faults of the embedded execution: a Go slice index out of
range, a failed type assertion, or exhaustion of the evaluator's fuel
(which only signals that the chosen fuel bound was too small, never a
behaviour of the program). -/
inductive ExecErr where
  | indexOutOfRange : ExecErr
  | typeAssertionFailed : ExecErr
  | outOfFuel : ExecErr
deriving DecidableEq, Repr

/-- Result of running handler code: normal completion, or a panic carrying
the state reached at the fault (Go panics do not undo side effects). -/
inductive Outcome where
  | ok : Ctx → Outcome
  | panic : ExecErr → Ctx → Outcome
deriving DecidableEq, Repr

/-- The context state an execution ends in, normal or panicking. -/
def Outcome.finalCtx : Outcome → Ctx
  | .ok c => c
  | .panic _ c => c

/-- The event log of the final state. -/
def Outcome.events (o : Outcome) : List String := o.finalCtx.events

/-- The response status of the final state. -/
def Outcome.status (o : Outcome) : Option Nat := o.finalCtx.response.status

/-- The response headers of the final state. -/
def Outcome.headers (o : Outcome) : List (String × String) := o.finalCtx.response.headers

/-- Whether the execution panicked. -/
def Outcome.isPanic : Outcome → Bool
  | .ok _ => false
  | .panic _ _ => true

/-- The fault an execution panicked with, if it did. -/
def Outcome.panicErr : Outcome → Option ExecErr
  | .ok _ => none
  | .panic e _ => some e

/-- Append a body chunk to a response. -/
def Response.write (r : Response) (s : String) : Response :=
  { r with body := r.body ++ [s] }

/-- The interpreter for deep-embedded handler bodies, as a call-stack
machine: the stack holds one frame per active handler invocation, each
frame being that handler's remaining actions (the spec's own design note
models chain continuation exactly this way).  The next case is the body
of Ctx.Next (src/context.go lines 205-208): increment the cursor, then
index the handlers slice at the incremented cursor with no bounds check,
so an index at or past the slice length is a Go runtime panic; the
indexed handler runs as a new frame and control returns to the caller's
frame when it finishes, which is what lets middleware run code after the
downstream chain.  One fuel unit is spent per machine step, so fuel
exhaustion only means the chosen bound was too small; the bounds check
fires before any recursion, independent of fuel. -/
def exec : Nat → List (List HAction) → Ctx → Outcome
  | 0, _, c => .panic .outOfFuel c
  | _ + 1, [], c => .ok c
  | fuel + 1, [] :: stack, c => exec fuel stack c
  | fuel + 1, (.record e :: rest) :: stack, c =>
      exec fuel (rest :: stack) { c with events := c.events ++ [e] }
  | fuel + 1, (.setKV k v :: rest) :: stack, c => exec fuel (rest :: stack) (c.Set k v)
  | fuel + 1, (.writeHeader n :: rest) :: stack, c =>
      exec fuel (rest :: stack) { c with response := c.response.writeHeader n }
  | fuel + 1, (.httpError n :: rest) :: stack, c =>
      exec fuel (rest :: stack) { c with response :=
        (((c.response.addHeader "Content-Type" "text/plain; charset=utf-8").writeHeader
          n).write (statusText n)) }
  | fuel + 1, (.addAllowFromMethods :: rest) :: stack, c =>
      match storeValue c.store "methods" with
      | .vmethods ms =>
          exec fuel (rest :: stack)
            { c with response := ms.foldl (fun r k => r.addHeader "Allow" k) c.response }
      | _ => .panic .typeAssertionFailed c
  | fuel + 1, (.next :: rest) :: stack, c =>
      let idx := c.index + 1
      let c1 := { c with index := idx }
      if idx < 0 then .panic .indexOutOfRange c1
      else
        match c1.handlers[idx.toNat]? with
        | none => .panic .indexOutOfRange c1
        | some h => exec fuel (h :: rest :: stack) c1

/-- Ctx.Next (src/context.go lines 205-208), the continuation primitive:
c.index++ followed by c.handlers[c.index](c.parent), run to completion. -/
def Ctx.Next (fuel : Nat) (c : Ctx) : Outcome := exec fuel [[HAction.next]] c

/-- Modelled from the spec: a node of the compressed prefix tree (spec
section 3, "Trie node"; the tree implementation is referenced by the
repository but not among the available source files).  A node owns a
literal label, static children keyed by branching byte, at most one
parameter child carrying the parameter name, at most one wildcard child
carrying the capture name and its method map, and a method-to-chain map
when the node is a registration terminal. -/
inductive Node where
  | mk : List Char → List (Char × Node) → Option (String × Node) →
      Option (String × List (String × HandlersChain)) →
      List (String × HandlersChain) → Node

/-- The node's literal label. -/
def Node.label : Node → List Char
  | .mk l _ _ _ _ => l

/-- The node's static children, keyed by branching byte. -/
def Node.kids : Node → List (Char × Node)
  | .mk _ k _ _ _ => k

/-- The node's parameter child, if any. -/
def Node.par : Node → Option (String × Node)
  | .mk _ _ p _ _ => p

/-- The node's wildcard child, if any. -/
def Node.wild : Node → Option (String × List (String × HandlersChain))
  | .mk _ _ _ w _ => w

/-- The node's method-to-chain map. -/
def Node.methods : Node → List (String × HandlersChain)
  | .mk _ _ _ _ ms => ms

/-- The empty root node the router starts from. -/
def emptyNode : Node := .mk [] [] none none []

/-- Static-child lookup by branching byte. -/
def lookupKid : List (Char × Node) → Char → Option Node
  | [], _ => none
  | (k, n) :: rest, c => if k = c then some n else lookupKid rest c

/-- Replace the static child keyed by the given byte. -/
def updateKid : List (Char × Node) → Char → Node → List (Char × Node)
  | [], _, _ => []
  | (k, n) :: rest, c, n2 => if k = c then (k, n2) :: rest else (k, n) :: updateKid rest c n2

/-- Chain lookup in a method map. -/
def lookupMethod : List (String × HandlersChain) → String → Option HandlersChain
  | [], _ => none
  | (m, ch) :: rest, key => if m = key then some ch else lookupMethod rest key

/-- Store a chain in a method map, overwriting an existing entry for the
same method (re-registering the same method and pattern overwrites). -/
def methodsUpsert : List (String × HandlersChain) → String → HandlersChain →
    List (String × HandlersChain)
  | [], m, ch => [(m, ch)]
  | (m', ch') :: rest, m, ch =>
      if m' = m then (m, ch) :: rest else (m', ch') :: methodsUpsert rest m ch

/-- One path segment: the characters before the next slash. -/
def segTake : List Char → List Char
  | [] => []
  | c :: t => if c = '/' then [] else c :: segTake t

/-- The rest of the path from the next slash on (the slash included). -/
def segDrop : List Char → List Char
  | [] => []
  | c :: t => if c = '/' then c :: t else segDrop t

/-- Byte-exact consumption of a node label by the path: the remaining path
when the label is a leading run of the path, none on any mismatch. -/
def dropLabel : List Char → List Char → Option (List Char)
  | [], p => some p
  | _ :: _, [] => none
  | lc :: lt, pc :: pt => if lc = pc then dropLabel lt pt else none

/-- Longest shared leading run of a node label and a pattern, together
with what remains of each. -/
def splitCommon : List Char → List Char → List Char × List Char × List Char
  | [], p => ([], [], p)
  | lc :: lt, [] => ([], lc :: lt, [])
  | lc :: lt, pc :: pt =>
      if lc = pc then
        let s := splitCommon lt pt
        (lc :: s.1, s.2.1, s.2.2)
      else ([], lc :: lt, pc :: pt)

/-- Literal part of a pattern, up to the next parameter or wildcard
marker. -/
def litTake : List Char → List Char
  | [] => []
  | c :: t => if c = ':' ∨ c = '*' then [] else c :: litTake t

/-- The pattern from its next marker on. -/
def litDrop : List Char → List Char
  | [] => []
  | c :: t => if c = ':' ∨ c = '*' then c :: t else litDrop t

/-- Modelled from the spec (section 4.1 Insert): build a fresh branch for
the part of a pattern that has no existing node to merge with: a node
whose label is the leading literal run, then a parameter child per
parameter segment, or a terminal wildcard child. -/
def buildRest : Nat → List Char → String → HandlersChain → Option Node
  | 0, _, _, _ => none
  | fuel + 1, pat, m, ch =>
    let lit := litTake pat
    match litDrop pat with
    | [] => some (.mk lit [] none none [(m, ch)])
    | pc :: pt =>
      if pc = ':' then
        match buildRest fuel (segDrop pt) m ch with
        | none => none
        | some child => some (.mk lit [] (some (String.mk (segTake pt), child)) none [])
      else
        some (.mk lit [] none (some (String.mk pt, [(m, ch)])) [])

/-- Modelled from the spec (section 4.1 Insert): walk the tree consuming
the longest shared literal run at each node; split a node whose label
diverges from the pattern, reattaching its children below the new
intermediate node; create or reuse parameter children (a name clash is a
ConflictingRoute, and so is any wildcard/static or wildcard/parameter
collision at one branch point, wildcard children being leaves); mark the
final node as a terminal for the method, overwriting an existing chain
for the same method and pattern.  none is a ConflictingRoute (or fuel
exhaustion for an absurdly small fuel). -/
def insertNode : Nat → Node → List Char → String → HandlersChain → Option Node
  | 0, _, _, _, _ => none
  | fuel + 1, n, pat, m, ch =>
    let s := splitCommon n.label pat
    match s.2.1 with
    | lc :: lt =>
      let lower : Node := .mk (lc :: lt) n.kids n.par n.wild n.methods
      match s.2.2 with
      | [] => some (.mk s.1 [(lc, lower)] none none [(m, ch)])
      | pc :: pt =>
        if pc = ':' then
          match buildRest fuel (segDrop pt) m ch with
          | none => none
          | some child =>
              some (.mk s.1 [(lc, lower)] (some (String.mk (segTake pt), child)) none [])
        else if pc = '*' then none
        else
          match buildRest fuel (pc :: pt) m ch with
          | none => none
          | some child => some (.mk s.1 [(lc, lower), (pc, child)] none none [])
    | [] =>
      match s.2.2 with
      | [] => some (.mk n.label n.kids n.par n.wild (methodsUpsert n.methods m ch))
      | pc :: pt =>
        if pc = ':' then
          match n.par with
          | some (pname', child) =>
            if pname' = String.mk (segTake pt) then
              match insertNode fuel child (segDrop pt) m ch with
              | none => none
              | some child2 =>
                  some (.mk n.label n.kids (some (pname', child2)) n.wild n.methods)
            else none
          | none =>
            if n.wild.isSome then none
            else
              match buildRest fuel (segDrop pt) m ch with
              | none => none
              | some child =>
                  some (.mk n.label n.kids (some (String.mk (segTake pt), child)) n.wild
                    n.methods)
        else if pc = '*' then
          if !n.kids.isEmpty ∨ n.par.isSome then none
          else
            match n.wild with
            | some (wname', wms) =>
              if wname' = String.mk pt then
                some (.mk n.label n.kids n.par (some (wname', methodsUpsert wms m ch))
                  n.methods)
              else none
            | none => some (.mk n.label n.kids n.par (some (String.mk pt, [(m, ch)])) n.methods)
        else
          match lookupKid n.kids pc with
          | some child =>
            match insertNode fuel child (pc :: pt) m ch with
            | none => none
            | some child2 =>
                some (.mk n.label (updateKid n.kids pc child2) n.par n.wild n.methods)
          | none =>
            if n.wild.isSome then none
            else
              match buildRest fuel (pc :: pt) m ch with
              | none => none
              | some child =>
                  some (.mk n.label (n.kids ++ [(pc, child)]) n.par n.wild n.methods)

/-- The result of Find: the chain for the requested method when the path
resolves to a terminal for it, the captured parameters in capture order,
and otherwise the methods that do have a chain at the resolved node (for
405 handling). -/
structure FindOut where
  chain : Option HandlersChain
  params : List Param
  allowed : List String
deriving DecidableEq, Repr

/-- Modelled from the spec (section 4.1 Find): the wildcard fallback at a
branch point, tried last; it consumes the entire remaining path as one
captured value and is terminal. -/
def findWild (n : Node) (m : String) (path : List Char) (acc : List Param) : FindOut :=
  match n.wild with
  | some (wname, wms) =>
    match lookupMethod wms m with
    | some ch => ⟨some ch, acc ++ [⟨wname, String.mk path⟩], []⟩
    | none => ⟨none, [], wms.map Prod.fst⟩
  | none => ⟨none, [], []⟩

/-- Modelled from the spec (section 4.1 Find): descend by byte-exact label
consumption; at a branch point try the static child for the next byte
first, the parameter child second (one non-empty segment), the wildcard
child last, each decision being final (no backtracking); a path exhausted
at a node resolves to that node's chain for the method, else reports the
node's other methods for 405 handling. -/
def findNode : Nat → Node → String → List Char → List Param → FindOut
  | 0, _, _, _, _ => ⟨none, [], []⟩
  | fuel + 1, n, m, path, acc =>
    match dropLabel n.label path with
    | none => ⟨none, [], []⟩
    | some [] =>
      match lookupMethod n.methods m with
      | some ch => ⟨some ch, acc, []⟩
      | none => ⟨none, [], n.methods.map Prod.fst⟩
    | some (hd :: rest) =>
      match lookupKid n.kids hd with
      | some child => findNode fuel child m (hd :: rest) acc
      | none =>
        match n.par with
        | some (pname, child) =>
          if segTake (hd :: rest) = [] then findWild n m (hd :: rest) acc
          else
            findNode fuel child m (segDrop (hd :: rest))
              (acc ++ [⟨pname, String.mk (segTake (hd :: rest))⟩])
        | none => findWild n m (hd :: rest) acc

/-- Find for a whole path string, starting at the root with no captures. -/
def findPath (fuel : Nat) (root : Node) (m : String) (path : String) : FindOut :=
  findNode fuel root m path.data []

/-- The path with its trailing slash toggled. -/
def toggleSlash (p : List Char) : List Char :=
  if p.getLast? = some '/' then p.dropLast else p ++ ['/']

/-- default404Handler (src/lars.go lines 128-130): http.Error with status
404 and its status text. -/
def default404Handler : Handler := [.httpError 404]

/-- methodNotAllowedHandler (src/lars.go lines 132-144): read the
chainMethods value stored under "methods", add one Allow header per
method in it, then write status 405. -/
def methodNotAllowedHandler : Handler := [.addAllowFromMethods, .writeHeader 405]

/-- LARS is the main routing instance (src/lars.go): the tree head, the
two policy switches and the 404/405 chains.  The pool and context
factory have no observable state of their own and are represented by
dispatch starting from a freshly reset context. -/
structure LARS where
  head : Node
  redirectTrailingSlash : Bool
  handleMethodNotAllowed : Bool
  http404 : HandlersChain
  http405 : HandlersChain

/-- New (src/lars.go lines 148-173): empty tree, trailing-slash redirects
on, method-not-allowed handling off, default 404 and 405 chains. -/
def larsNew : LARS :=
  { head := emptyNode
    redirectTrailingSlash := true
    handleMethodNotAllowed := false
    http404 := [default404Handler]
    http405 := [methodNotAllowedHandler] }

/-- SetRedirectTrailingSlash (src/lars.go lines 197-199). -/
def LARS.SetRedirectTrailingSlash (l : LARS) (set : Bool) : LARS :=
  { l with redirectTrailingSlash := set }

/-- SetHandle405MethodNotAllowed (src/lars.go lines 203-205). -/
def LARS.SetHandle405MethodNotAllowed (l : LARS) (set : Bool) : LARS :=
  { l with handleMethodNotAllowed := set }

/-- Route registration: insert a pattern into the instance's tree. -/
def LARS.addRoute (l : LARS) (m : String) (pat : String) (ch : HandlersChain) : Option LARS :=
  match insertNode 1000 l.head pat.data m ch with
  | none => none
  | some head2 => some { l with head := head2 }

/-- Modelled from the spec (section 4.2) and the redirectTrailingSlash
field documentation in src/lars.go lines 111-116, which fixes the status
split: the client is redirected with status code 301 for GET requests
and 307 for all other request methods. -/
def redirectStatus (method : String) : Nat :=
  if method = "GET" then 301 else 307

/-- Modelled from the spec (section 4.2 Dispatcher), anchored on serveHTTP
(src/lars.go lines 218-227): acquire and reset a context, run Find, then
apply the fallback policy.  A match executes its chain from the
before-first cursor; otherwise, with redirects enabled and the
slash-toggled path matching, a redirect response is emitted and no
handler runs; otherwise, with 405 handling enabled and other methods
having a chain at the node, the allowed methods are stored under the key
"methods" and the 405 chain runs; otherwise the 404 chain runs. -/
def handleRequest (fuel : Nat) (l : LARS) (method : String) (path : String)
    (req : HttpRequest) : Outcome :=
  let c0 := Ctx.fresh.RequestStart req
  let fr := findPath fuel l.head method path
  match fr.chain with
  | some ch => Ctx.Next fuel { c0 with handlers := ch, params := fr.params }
  | none =>
    if l.redirectTrailingSlash &&
        (findNode fuel l.head method (toggleSlash path.data) []).chain.isSome then
      .ok { c0 with response :=
        ((c0.response.addHeader "Location" (String.mk (toggleSlash path.data))).writeHeader
          (redirectStatus method)) }
    else if l.handleMethodNotAllowed && !fr.allowed.isEmpty then
      Ctx.Next fuel { c0.Set "methods" (GoVal.vmethods fr.allowed) with handlers := l.http405 }
    else
      Ctx.Next fuel { c0 with handlers := l.http404 }

/-- A nesting handler of the continuation-ordering scenario: record an
enter event, invoke the continuation primitive once, record an exit
event. -/
def nestHandler (e x : String) : Handler := [.record e, .next, .record x]

/-- The three-handler chain in which every handler invokes the
continuation primitive exactly once. -/
def nestChain : HandlersChain :=
  [nestHandler "enter1" "exit1", nestHandler "enter2" "exit2", nestHandler "enter3" "exit3"]

/-- A context holding the full nesting chain, cursor before-first. -/
def nestCtx : Ctx := { Ctx.fresh with handlers := nestChain }

/-- The same chain except handler 2 never invokes the continuation
primitive. -/
def shortChain : HandlersChain :=
  [nestHandler "enter1" "exit1", [.record "enter2"], nestHandler "enter3" "exit3"]

/-- A context holding the short-circuiting chain, cursor before-first. -/
def shortCtx : Ctx := { Ctx.fresh with handlers := shortChain }

/-- The chain registered for the static pattern /users/admin. -/
def staticChain : HandlersChain := [[.record "static"]]

/-- The chain registered for the parameter pattern /users/:id. -/
def paramChain : HandlersChain := [[.record "param"]]

/-- The precedence example table: /users/admin and /users/:id, both for
GET. -/
def usersRouter : LARS :=
  ((larsNew.addRoute "GET" "/users/admin" staticChain).bind
    (fun l => l.addRoute "GET" "/users/:id" paramChain)).getD larsNew

/-- The tree the two /users registrations build, written out. -/
def usersTreeLit : Node :=
  .mk []
    [('/', .mk "/users/".data
        [('a', .mk "admin".data [] none none [("GET", staticChain)])]
        (some ("id", .mk [] [] none none [("GET", paramChain)]))
        none [])]
    none none []

/-- The chain registered for /foo. -/
def fooChain : HandlersChain := [[.record "foo"]]

/-- The trailing-slash example table: /foo registered for GET and HEAD. -/
def fooRouter : LARS :=
  ((larsNew.addRoute "GET" "/foo" fooChain).bind
    (fun l => l.addRoute "HEAD" "/foo" fooChain)).getD larsNew

/-- The chain registered for GET /widgets. -/
def widgetsGetChain : HandlersChain := [[.record "wget"]]

/-- The chain registered for POST /widgets. -/
def widgetsPostChain : HandlersChain := [[.record "wpost"]]

/-- The method-not-allowed example table: GET and POST /widgets, with 405
handling switched on. -/
def widgetsRouter : LARS :=
  (((larsNew.addRoute "GET" "/widgets" widgetsGetChain).bind
      (fun l => l.addRoute "POST" "/widgets" widgetsPostChain)).getD
    larsNew).SetHandle405MethodNotAllowed true

/-- A context whose request carries one query entry and whose match
captured one parameter, before any form parsing. -/
def formCtx : Ctx :=
  { Ctx.fresh with
      request := ⟨[("q", "1")], false, false, []⟩
      params := [⟨"id", "7"⟩] }

/-- A context whose one-handler chain has been fully executed: the cursor
sits at the last handler of its resolved chain. -/
def pastEndCtx : Ctx :=
  { Ctx.fresh with handlers := [[HAction.record "a"]], index := 0 }

/-- The Param loop agrees with a first-match list search. -/
theorem paramLookup_eq_find (ps : List Param) (name : String) :
    paramLookup ps name = ((ps.find? (fun p => p.Key == name)).map Param.Value).getD "" := by
  induction ps with
  | nil => rfl
  | cons p rest ih =>
    by_cases h : p.Key = name
    · have hb : (p.Key == name) = true := by simp [h]
      simp [paramLookup, h, List.find?_cons, hb]
    · have hb : (p.Key == name) = false := by simp [h]
      rw [paramLookup, if_neg h, List.find?_cons, hb, ih]

/-- A key that appears in no binding looks up as the nil value. -/
theorem storeValue_absent (st : List (String × GoVal)) (key : String)
    (h : key ∉ st.map Prod.fst) : storeValue st key = GoVal.vnil := by
  induction st with
  | nil => rfl
  | cons kv rest ih =>
    have hk : kv.1 ≠ key := by
      intro e
      exact h (by simp [e])
    have hr : key ∉ rest.map Prod.fst := fun m => h (by simp [m])
    calc storeValue (kv :: rest) key = storeValue ((kv.1, kv.2) :: rest) key := by rfl
      _ = GoVal.vnil := by rw [storeValue, if_neg hk, ih hr]

/-- Consuming a label that is a leading run of the path leaves the rest. -/
theorem dropLabel_append (l r : List Char) : dropLabel l (l ++ r) = some r := by
  induction l with
  | nil => rfl
  | cons c t ih => simp [dropLabel, ih]

/-- A slash-free run is one whole segment. -/
theorem segTake_no_slash (s : List Char) (h : '/' ∉ s) : segTake s = s := by
  induction s with
  | nil => rfl
  | cons c t ih =>
    have hc : ¬(c = '/') := by
      intro e
      exact h (by simp [e])
    have ht : '/' ∉ t := fun m => h (List.mem_cons_of_mem _ m)
    rw [segTake, if_neg hc, ih ht]

/-- Nothing follows a slash-free segment. -/
theorem segDrop_no_slash (s : List Char) (h : '/' ∉ s) : segDrop s = [] := by
  induction s with
  | nil => rfl
  | cons c t ih =>
    have hc : ¬(c = '/') := by
      intro e
      exact h (by simp [e])
    have ht : '/' ∉ t := fun m => h (List.mem_cons_of_mem _ m)
    rw [segDrop, if_neg hc, ih ht]

/-- Folding formAdd over the parameters appends each pair exactly once. -/
theorem foldl_formAdd_form (ps : List Param) (r : HttpRequest) :
    (ps.foldl (fun acc p => acc.formAdd p.Key p.Value) r).form
      = r.form ++ ps.map (fun p => (p.Key, p.Value)) := by
  induction ps generalizing r with
  | nil => simp
  | cons p t ih =>
    rw [List.foldl_cons, ih]
    simp [HttpRequest.formAdd]

/-- C2: after RequestStart runs against a new request, the parameter slice
is empty, the key/value store reports every key as absent, and the chain
cursor is at the before-first position, whatever parameters, bindings or
cursor the context held before. -/
theorem C2_requestStart_resets (c : Ctx) (req : HttpRequest) :
    (c.RequestStart req).params = [] ∧
    (∀ key : String, (c.RequestStart req).Get key = (GoVal.vnil, false)) ∧
    (c.RequestStart req).index = -1 :=
  ⟨rfl, fun _ => rfl, rfl⟩

/-- C9: Ctx.Param returns the value of the first parameter whose key
matches the name, the empty string when none does, and an absent
parameter is indistinguishable from one captured as the empty string. -/
theorem C9_param_first_match (c : Ctx) (name : String) :
    c.Param name = ((c.params.find? (fun p => p.Key == name)).map Param.Value).getD "" ∧
    Ctx.Param { c with params := [] } name = Ctx.Param { c with params := [⟨name, ""⟩] } name := by
  refine ⟨paramLookup_eq_find c.params name, ?_⟩
  simp [Ctx.Param, paramLookup]

/-- C3 fails as stated: a key stored via Set with the nil interface value
is reported as absent (exists = false), because Get decides existence by
comparing the looked-up value with nil; the claim requires exists = true
for every stored value. -/
theorem C3_counterexample_nil_value :
    (Ctx.fresh.Set "k" GoVal.vnil).Get "k" = (GoVal.vnil, false) ∧
    ((Ctx.fresh.Set "k" GoVal.vnil).Get "k").2 ≠ true := by
  exact ⟨rfl, by decide⟩

/-- C3 amended: Get on a key never stored reports exists = false, and Get
on a key stored via Set with any non-nil value (the empty string and
zero included, which are non-nil interface values) reports exists = true
together with that value; a key stored with the nil value is reported
absent. -/
theorem C3_get_distinguishes_absence (st : List (String × GoVal)) (c : Ctx)
    (key key2 : String) (v : GoVal) (habs : key ∉ st.map Prod.fst) (hv : v ≠ GoVal.vnil) :
    Ctx.Get { c with store := st } key = (GoVal.vnil, false) ∧
    (c.Set key2 v).Get key2 = (v, true) := by
  constructor
  · simp [Ctx.Get, storeValue_absent st key habs]
  · simp [Ctx.Get, Ctx.Set, storeValue, hv]

/-- C3 amended, witnessed at a store holding one other key and at the
empty string stored under a key. -/
theorem C3_get_distinguishes_absence_witness :
    Ctx.Get { Ctx.fresh with store := [("a", GoVal.vstr "x")] } "b" = (GoVal.vnil, false) ∧
    (Ctx.fresh.Set "k" (GoVal.vstr "")).Get "k" = (GoVal.vstr "", true) := by
  have h := C3_get_distinguishes_absence [("a", GoVal.vstr "x")] Ctx.fresh "b" "k"
    (GoVal.vstr "") (by decide) (by decide)
  exact h

/-- C8: a fresh instance from New has trailing-slash redirection enabled,
method-not-allowed handling disabled, a 404 chain holding the default
handler which writes status 404, and a 405 chain holding the
method-not-allowed handler. -/
theorem C8_new_defaults :
    larsNew.redirectTrailingSlash = true ∧
    larsNew.handleMethodNotAllowed = false ∧
    larsNew.http404 = [default404Handler] ∧
    larsNew.http405 = [methodNotAllowedHandler] ∧
    (Ctx.Next 5 { Ctx.fresh with handlers := larsNew.http404 }).status = some 404 ∧
    (Ctx.Next 5 { Ctx.fresh with handlers := larsNew.http404 }).isPanic = false :=
  ⟨rfl, rfl, rfl, rfl, rfl, rfl⟩

/-- C1 fails as stated: with the chain cursor exactly at the last handler
of its resolved chain, invoking Ctx.Next is not a no-op but an
index-out-of-range fault; no handler runs (the event log stays empty),
and the claim requires no error to be raised. -/
theorem C1_counterexample :
    pastEndCtx.index = (pastEndCtx.handlers.length : Int) - 1 ∧
    (Ctx.Next 10 pastEndCtx).panicErr = some .indexOutOfRange ∧
    (Ctx.Next 10 pastEndCtx).events = [] :=
  ⟨rfl, rfl, rfl⟩

/-- C1 amended: for every context whose chain cursor has reached or
passed the last handler of its resolved chain, invoking Ctx.Next raises
an index-out-of-range fault after incrementing the cursor, invoking no
handler and changing nothing else. -/
theorem C1_next_past_end_faults (fuel : Nat) (c : Ctx)
    (h : (c.handlers.length : Int) - 1 ≤ c.index) :
    Ctx.Next (fuel + 1) c = .panic .indexOutOfRange { c with index := c.index + 1 } := by
  by_cases hneg : c.index + 1 < 0
  · simp [Ctx.Next, exec, hneg]
  · have hlen : c.handlers.length ≤ (c.index + 1).toNat := by omega
    have hget : c.handlers[(c.index + 1).toNat]? = none := List.getElem?_eq_none hlen
    simp [Ctx.Next, exec, hneg, hget]

/-- C1 amended, witnessed on a context whose chain is already exhausted. -/
theorem C1_next_past_end_faults_witness :
    ((Ctx.fresh.handlers.length : Int) - 1 ≤ Ctx.fresh.index) ∧
    Ctx.Next 1 Ctx.fresh = .panic .indexOutOfRange { Ctx.fresh with index := Ctx.fresh.index + 1 } :=
  ⟨by decide, C1_next_past_end_faults 0 Ctx.fresh (by decide)⟩

/-- C5 fails as stated: in the three-handler chain where every handler
records enter, invokes Ctx.Next exactly once and records exit, execution
does not produce the claimed nesting order; handler 3's continuation
call faults past the end of the chain, so no exit event is ever
recorded. -/
theorem C5_counterexample :
    (Ctx.Next 50 nestCtx).events ≠
      ["enter1", "enter2", "enter3", "exit3", "exit2", "exit1"] ∧
    (Ctx.Next 50 nestCtx).isPanic = true :=
  ⟨by decide, rfl⟩

/-- C5 amended: the all-invoking three-handler chain produces the enter
events in order and then an index-out-of-range fault from handler 3's
continuation call, with no exit event recorded; when handler 2 never
invokes the continuation primitive, the order is enter1, enter2, exit1
and handler 3 never runs. -/
theorem C5_continuation_ordering :
    (Ctx.Next 50 nestCtx).events = ["enter1", "enter2", "enter3"] ∧
    (Ctx.Next 50 nestCtx).panicErr = some .indexOutOfRange ∧
    (Ctx.Next 50 shortCtx).isPanic = false ∧
    (Ctx.Next 50 shortCtx).events = ["enter1", "enter2", "exit1"] ∧
    "enter3" ∉ (Ctx.Next 50 shortCtx).events :=
  ⟨rfl, rfl, rfl, rfl, by decide⟩

/-- C6 fails as stated: on the slash-toggle table, a HEAD request for
/foo/ is in a redirectable situation (no direct match, toggled path
matches, redirects enabled), yet the dispatcher emits status 307, not
the 301 the claim assigns to the safe methods GET and HEAD; this follows
the redirectTrailingSlash documentation in the source, which reserves
301 for GET requests alone. -/
theorem C6_counterexample :
    (findPath 50 fooRouter.head "HEAD" "/foo/").chain = none ∧
    (findNode 50 fooRouter.head "HEAD" (toggleSlash "/foo/".data) []).chain.isSome = true ∧
    fooRouter.redirectTrailingSlash = true ∧
    (handleRequest 50 fooRouter "HEAD" "/foo/" HttpRequest.empty).status ≠ some 301 ∧
    (handleRequest 50 fooRouter "HEAD" "/foo/" HttpRequest.empty).status = some 307 :=
  ⟨rfl, rfl, rfl, by decide, rfl⟩

/-- C6 amended: when no route matches the path, the slash-toggled path
would match, and trailing-slash redirection is enabled, the dispatcher
emits a redirect whose status is 301 for GET and 307 for every other
method (HEAD included), and executes no handler. -/
theorem C6_redirect_status (fuel : Nat) (l : LARS) (m path : String) (req : HttpRequest)
    (h1 : (findPath fuel l.head m path).chain = none)
    (h2 : (findNode fuel l.head m (toggleSlash path.data) []).chain.isSome = true)
    (h3 : l.redirectTrailingSlash = true) :
    (handleRequest fuel l m path req).status = some (if m = "GET" then 301 else 307) ∧
    (handleRequest fuel l m path req).events = [] := by
  unfold handleRequest
  simp only [h1, h2, h3, Bool.and_self, if_true, Bool.true_and, if_pos]
  constructor
  · rfl
  · rfl

/-- C6 amended, witnessed by the HEAD redirect on the slash-toggle
table. -/
theorem C6_redirect_status_witness :
    (handleRequest 50 fooRouter "HEAD" "/foo/" HttpRequest.empty).status =
      some (if "HEAD" = "GET" then 301 else 307) ∧
    (handleRequest 50 fooRouter "HEAD" "/foo/" HttpRequest.empty).events = [] :=
  C6_redirect_status 50 fooRouter "HEAD" "/foo/" HttpRequest.empty rfl rfl rfl

/-- C7: with 405 handling enabled and GET and POST registered at
/widgets, dispatching DELETE /widgets writes status 405 and Allow
headers whose entries are exactly the set of methods with a chain at
that path: GET and POST, nothing missing and nothing extra. -/
theorem C7_405_allow_exact :
    (handleRequest 50 widgetsRouter "DELETE" "/widgets" HttpRequest.empty).status = some 405 ∧
    (handleRequest 50 widgetsRouter "DELETE" "/widgets" HttpRequest.empty).headers =
      [("Allow", "GET"), ("Allow", "POST")] ∧
    (∀ m : String,
      ("Allow", m) ∈ (handleRequest 50 widgetsRouter "DELETE" "/widgets"
          HttpRequest.empty).headers ↔ (m = "GET" ∨ m = "POST")) := by
  refine ⟨rfl, rfl, ?_⟩
  intro m
  rw [show (handleRequest 50 widgetsRouter "DELETE" "/widgets" HttpRequest.empty).headers =
    [("Allow", "GET"), ("Allow", "POST")] from rfl]
  simp

/-- C10: the first successful ParseForm call parses the underlying form
and adds each matched parameter pair to it exactly once, and any
further call on the same context before the next reset returns nil with
the context unchanged. -/
theorem C10_parseForm_once_idempotent :
    (∀ c : Ctx, c.formParsed = false → c.request.httpParsed = false →
      c.request.parseFails = false →
      ∃ c2 : Ctx, c.ParseForm = .ok c2 ∧ c2.formParsed = true ∧
        c2.request.form = c.request.baseForm ++ c.params.map (fun p => (p.Key, p.Value))) ∧
    (∀ c c2 : Ctx, c.ParseForm = .ok c2 → c2.ParseForm = .ok c2) := by
  constructor
  · intro c hf hh hp
    have hd : c.request.doParseForm =
        .ok { c.request with form := c.request.baseForm, httpParsed := true } := by
      unfold HttpRequest.doParseForm
      simp [hh, hp]
    refine ⟨{ c with
        request := c.params.foldl (fun acc p => acc.formAdd p.Key p.Value)
          { c.request with form := c.request.baseForm, httpParsed := true },
        formParsed := true }, ?_, rfl, ?_⟩
    · unfold Ctx.ParseForm
      simp [hf, hd]
    · rw [foldl_formAdd_form]
  · intro c c2 h
    by_cases hf : c.formParsed
    · unfold Ctx.ParseForm at h
      rw [if_pos hf] at h
      injection h with h2
      subst h2
      unfold Ctx.ParseForm
      rw [if_pos hf]
    · unfold Ctx.ParseForm at h
      rw [if_neg hf] at h
      cases hd : c.request.doParseForm with
      | error e =>
        simp only [hd] at h
        exact Except.noConfusion h
      | ok r =>
        simp only [hd] at h
        injection h with h2
        subst h2
        unfold Ctx.ParseForm
        simp

/-- C10, witnessed on a context carrying one query entry and one matched
parameter, both for the first call and for the repeated call on its
result. -/
theorem C10_parseForm_once_idempotent_witness :
    (∃ c2 : Ctx, formCtx.ParseForm = .ok c2 ∧ c2.formParsed = true ∧
      c2.request.form = formCtx.request.baseForm ++
        formCtx.params.map (fun p => (p.Key, p.Value))) ∧
    Ctx.ParseForm
        { formCtx with
            request := ⟨[("q", "1")], false, true, [("q", "1"), ("id", "7")]⟩
            formParsed := true } =
      .ok { formCtx with
              request := ⟨[("q", "1")], false, true, [("q", "1"), ("id", "7")]⟩
              formParsed := true } :=
  ⟨C10_parseForm_once_idempotent.1 formCtx rfl rfl rfl,
   C10_parseForm_once_idempotent.2 formCtx _ rfl⟩

/-- C4 fails as stated: /users/adminx matches the parameter pattern
/users/:id (one non-empty, slash-free segment that is not the literal
admin), so the claim requires the parameter chain with id = adminx, yet
Find returns no chain at all: it commits to the static branch on the
shared first byte and branch decisions are final. -/
theorem C4_counterexample :
    findPath 50 usersRouter.head "GET" "/users/adminx" = ⟨none, [], []⟩ ∧
    ("adminx" : String) ≠ "admin" ∧ '/' ∉ "adminx".data ∧ ("adminx" : String) ≠ "" :=
  ⟨rfl, by decide, by decide, by decide⟩

/-- C4 amended: with /users/admin and /users/:id registered for GET, Find
returns the static chain for the literal /users/admin, and returns the
parameter chain with the segment captured under id for every other
matching path whose segment does not begin with the branching byte of
the static sibling. -/
theorem C4_static_param_precedence :
    findPath 50 usersRouter.head "GET" "/users/admin" = ⟨some staticChain, [], []⟩ ∧
    (∀ (fuel : Nat) (hd : Char) (t : List Char), hd ≠ 'a' → '/' ∉ hd :: t →
      findNode (fuel + 3) usersRouter.head "GET" ("/users/".data ++ hd :: t) [] =
        ⟨some paramChain, [⟨"id", String.mk (hd :: t)⟩], []⟩) := by
  constructor
  · rfl
  · intro fuel hd t hhd hslash
    have hseg : segTake (hd :: t) = hd :: t := segTake_no_slash _ hslash
    have hdrop : segDrop (hd :: t) = [] := segDrop_no_slash _ hslash
    have hka : ¬(('a' : Char) = hd) := fun e => hhd e.symm
    show findNode (fuel + 3) usersTreeLit "GET" ("/users/".data ++ hd :: t) [] = _
    rw [show ("/users/".data ++ hd :: t) = '/' :: ("users/".data ++ hd :: t) from rfl]
    rw [show (fuel + 3) = (fuel + 2) + 1 from rfl]
    rw [findNode]
    simp only [usersTreeLit, Node.label, Node.kids, Node.par, Node.wild, Node.methods,
      dropLabel, lookupKid, if_pos]
    rw [show ('/' :: (['u', 's', 'e', 'r', 's', '/'] ++ hd :: t)) =
        (['/', 'u', 's', 'e', 'r', 's', '/'] ++ hd :: t) from rfl]
    rw [show (fuel + 2) = (fuel + 1) + 1 from rfl]
    rw [findNode]
    simp only [Node.label, Node.kids, Node.par, Node.wild, Node.methods]
    rw [dropLabel_append]
    have hne : ¬(hd :: t = []) := by simp
    simp only [lookupKid, if_neg hka, hseg, hdrop]
    rw [if_neg hne, findNode]
    simp [dropLabel, lookupMethod]

/-- C4 amended, witnessed: Find resolves /users/bob to the parameter
chain with id = bob. -/
theorem C4_static_param_precedence_witness :
    findNode 50 usersRouter.head "GET" ("/users/".data ++ 'b' :: "ob".data) [] =
      ⟨some paramChain, [⟨"id", String.mk ('b' :: "ob".data)⟩], []⟩ :=
  C4_static_param_precedence.2 47 'b' "ob".data (by decide) (by decide)
